import Mathlib

/-!
Verification of the text-serialization layer of the velocitrack repository
(src/velocitrack/main.py): the two formatter functions
`create_text_response_1d` (VELEST-style fixed-width profile output) and
`create_text_response_3d` (pipe-delimited grid output).

Record fields that the Python code formats with two-decimal conversions
(`f"{x:4.2f}"`, `f"{x:5.2f}"`) or interpolates with `str()` are modelled by
`Fx`, an exact two-decimal fixed-point number carrying an IEEE-style sign
bit so that negative zero (`-0.0`) is representable, since the Python code
compares floats against `0` and Python floats distinguish `-0.0` from `0.0`
in printing but not in ordering.  String fields (`wave_type`, `nfo`,
`bibref`) are Lean strings; integer counters are `Nat` (the HTTP layer
validates `limit ≥ 1` and `offset ≥ 0`, and `total_count` is a row count).
-/

namespace Velocitrack

/-- A two-decimal fixed-point value: the represented number is
`(-1)^(cond neg) * mag / 100`.  `neg = true, mag = 0` is negative zero. -/
structure Fx where
  neg : Bool
  mag : Nat
deriving DecidableEq, Repr

/-- Numeric value in integer hundredths.  This realizes the IEEE comparison
semantics the Python code sees: `-0.0` compares equal to `0.0`. -/
def Fx.toZ (x : Fx) : Int :=
  if x.neg then -(x.mag : Int) else (x.mag : Int)

/-- The constant `1.0` (the default scale factor in the Python code). -/
def fxOne : Fx := ⟨false, 100⟩

/-- A run of `n` space characters. -/
def spaces (n : Nat) : String := String.mk (List.replicate n ' ')

/-- Two-digit zero-padded decimal rendering (used for the fractional part
of a two-decimal conversion). -/
def pad2 (n : Nat) : String :=
  if n < 10 then "0" ++ Nat.repr n else Nat.repr n

/-- The sign mark of a float rendering: `"-"` when the sign bit is set. -/
def signStr (b : Bool) : String := if b then "-" else ""

/-- The unpadded two-decimal decimal string of an `Fx` value, e.g. `-3.25`,
`-0.00`, `12.50`.  This is what Python `"%.2f"` produces on a value that is
exact in hundredths. -/
def Fx.digits (x : Fx) : String :=
  signStr x.neg ++ Nat.repr (x.mag / 100) ++ "." ++ pad2 (x.mag % 100)

/-- Python `f"{x:w.2f}"` on a value exact in hundredths: the two-decimal
string, left-padded with spaces to a MINIMUM width `w` (Python format
widths never truncate). -/
def fmtFixed (w : Nat) (x : Fx) : String :=
  spaces (w - x.digits.length) ++ x.digits

/-- Python `str(x)` / f-string interpolation of a float exact in
hundredths: shortest decimal form, keeping at least one fractional digit
(`str(2.0) = "2.0"`, `str(2.5) = "2.5"`, `str(3.25) = "3.25"`,
`str(-0.0) = "-0.0"`). -/
def Fx.pyStr (x : Fx) : String :=
  signStr x.neg ++ Nat.repr (x.mag / 100) ++ "." ++
    (if x.mag % 100 = 0 then "0"
     else if x.mag % 10 = 0 then Nat.repr (x.mag % 100 / 10)
     else pad2 (x.mag % 100))

/-- A row of the `velocity_models_1d` table as consumed by
`create_text_response_1d` (fields `id` and `author` are never read by the
formatter and are omitted). -/
structure Model1D where
  wave_type : String
  depth : Fx
  velocity : Fx
  nfo : String
deriving DecidableEq, Repr

/-- A row of a `velocity_models_3d_*` table as consumed by
`create_text_response_3d`.  The two table classes carry `vp` resp. `vs`;
the model carries both so that a single type covers both classes (the code
reads only the one selected by `wave_type`).  `r` is a nullable column. -/
structure Model3D where
  longitude : Fx
  latitude : Fx
  depth : Fx
  vp : Fx
  vs : Fx
  r : Option Fx
  nfo : String
deriving DecidableEq, Repr

/-- `[m for m in models if m.wave_type == "VP"]` -/
def vp_models (models : List Model1D) : List Model1D :=
  models.filter (fun m => m.wave_type == "VP")

/-- `[m for m in models if m.wave_type == "VS"]` -/
def vs_models (models : List Model1D) : List Model1D :=
  models.filter (fun m => m.wave_type == "VS")

/-- The key order used by `list.sort(key=lambda x: x.depth)`: comparison of
the float values (under which `-0.0 = 0.0`). -/
def depthLE (a b : Model1D) : Prop := a.depth.toZ ≤ b.depth.toZ

instance : DecidableRel depthLE := fun a b =>
  inferInstanceAs (Decidable (a.depth.toZ ≤ b.depth.toZ))

instance : IsTotal Model1D depthLE :=
  ⟨fun a b => Int.le_total a.depth.toZ b.depth.toZ⟩

instance : IsTrans Model1D depthLE :=
  ⟨fun _ _ _ hab hbc => Int.le_trans hab hbc⟩

/-- Python `list.sort(key=lambda x: x.depth)` is a stable ascending sort by
the depth key; insertion sort computes exactly that list. -/
def sortByDepth (ms : List Model1D) : List Model1D :=
  List.insertionSort depthLE ms

/-- The `(depth_str, spacing)` pair computed by the three-way branch on
`model.depth` in `create_text_response_1d`
(`if model.depth < 0: ... elif model.depth >= 10: ... else: ...`). -/
def depthFmt (d : Fx) : String × String :=
  if d.toZ < 0 then (fmtFixed 5 d, spaces 7)
  else if 1000 ≤ d.toZ then (fmtFixed 5 d, spaces 7)
  else (fmtFixed 4 d, spaces 8)

/-- One body line
`f" {vel_str}{spacing}{depth_str}   001.000"`, with the model tag appended
on the first line of a section (`tag` is `"P-VELOCITY MODEL"` or
`"S-VELOCITY MODEL"`). -/
def bodyLine (tag : String) (first : Bool) (m : Model1D) : String :=
  " " ++ fmtFixed 4 m.velocity ++ (depthFmt m.depth).2 ++ (depthFmt m.depth).1
    ++ "   001.000" ++ (if first then "           " ++ tag else "")

/-- The body lines of one wave-type section: the record at index 0 gets the
tagged line, the rest get untagged lines. -/
def sectionLines (tag : String) : List Model1D → List String
  | [] => []
  | m :: rest => bodyLine tag true m :: rest.map (bodyLine tag false)

/-- The P section: skipped entirely when the subset is empty, otherwise a
count/format-descriptor line followed by the body lines. -/
def vpSection (vp : List Model1D) : List String :=
  if vp.isEmpty then []
  else (" " ++ Nat.repr vp.length
          ++ "        vel,depth,vdamp,phase (f5.2,5x,f7.2,2x,f7.3,3x,a1)")
        :: sectionLines "P-VELOCITY MODEL" vp

/-- The S section: skipped when empty, otherwise a bare count line followed
by the body lines. -/
def vsSection (vs : List Model1D) : List String :=
  if vs.isEmpty then []
  else (" " ++ Nat.repr vs.length) :: sectionLines "S-VELOCITY MODEL" vs

/-- The title line `f"1D {nfo} {bibref}"` / `f"1D {nfo}"` (Python string
truthiness: the bibref is appended exactly when it is non-empty). -/
def titleLine1d (models : List Model1D) (bibref : String) : String :=
  let nfo := ((models.head?).map Model1D.nfo).getD "Unknown"
  if bibref = "" then "1D " ++ nfo else "1D " ++ nfo ++ " " ++ bibref

/-- The pagination annotation text
`f"# Showing {offset + 1}-{offset + len(models)} of {total_count} records (limit={limit}, offset={offset})"`. -/
def pagLine (total_count offset limit count : Nat) : String :=
  "# Showing " ++ Nat.repr (offset + 1) ++ "-" ++ Nat.repr (offset + count)
    ++ " of " ++ Nat.repr total_count ++ " records (limit=" ++ Nat.repr limit
    ++ ", offset=" ++ Nat.repr offset ++ ")"

/-- The annotation lines: one line when `total_count > len(models)`, none
otherwise. -/
def pagLines (total_count offset limit count : Nat) : List String :=
  if count < total_count then [pagLine total_count offset limit count] else []

/-- The full line list built by `create_text_response_1d` on a non-empty
input (title, optional annotation, P section, S section). -/
def lines1d (models : List Model1D) (bibref : String)
    (total_count offset limit : Nat) : List String :=
  titleLine1d models bibref
    :: pagLines total_count offset limit models.length
    ++ vpSection (sortByDepth (vp_models models))
    ++ vsSection (sortByDepth (vs_models models))

/-- `create_text_response_1d` from src/velocitrack/main.py. -/
def create_text_response_1d (models : List Model1D) (bibref : String)
    (total_count offset limit : Nat) : String :=
  if models.isEmpty then ""
  else String.intercalate "\n" (lines1d models bibref total_count offset limit)

/-- The per-record test `model.r != 1.0` of the Python code: a SQL NULL
(`None`) compares unequal to the float `1.0`. -/
def rNeOne (r : Option Fx) : Bool :=
  match r with
  | none => true
  | some v => decide (v.toZ ≠ 100)

/-- `show_r = include_r and any(model.r != 1.0 for model in models)`. -/
def gridShowR (include_r : Bool) (models : List Model3D) : Bool :=
  include_r && models.any (fun m => rNeOne m.r)

/-- The velocity column caption (`"Vp"` for wave type `"VP"`, else
`"Vs"`). -/
def velName (wave_type : String) : String :=
  if wave_type == "VP" then "Vp" else "Vs"

/-- The column header line, with `"|R"` appended exactly when the R column
is shown. -/
def gridHeader (wave_type : String) (show_r : Bool) : String :=
  if show_r then "Longitude|Latitude|Depth|" ++ velName wave_type ++ "|R"
  else "Longitude|Latitude|Depth|" ++ velName wave_type

/-- The four always-present values of one body row, pipe-joined:
`f"{model.longitude}|{model.latitude}|{model.depth}|{velocity}"`. -/
def gridRowBase (wave_type : String) (m : Model3D) : String :=
  m.longitude.pyStr ++ "|" ++ m.latitude.pyStr ++ "|" ++ m.depth.pyStr ++ "|"
    ++ (if wave_type == "VP" then m.vp else m.vs).pyStr

/-- One body row; when the R column is shown, the fifth value is
`model.r if model.r is not None else 1.0`. -/
def gridRow (wave_type : String) (show_r : Bool) (m : Model3D) : String :=
  if show_r then gridRowBase wave_type m ++ "|" ++ (m.r.getD fxOne).pyStr
  else gridRowBase wave_type m

/-- The title line `f"3D {nfo} {bibref}"` / `f"3D {nfo}"`. -/
def titleLine3d (models : List Model3D) (bibref : String) : String :=
  let nfo := ((models.head?).map Model3D.nfo).getD "Unknown"
  if bibref = "" then "3D " ++ nfo else "3D " ++ nfo ++ " " ++ bibref

/-- The full line list built by `create_text_response_3d` on a non-empty
input (title, optional annotation, column header, one row per record). -/
def lines3d (models : List Model3D) (wave_type : String) (include_r : Bool)
    (bibref : String) (total_count offset limit : Nat) : List String :=
  titleLine3d models bibref
    :: pagLines total_count offset limit models.length
    ++ gridHeader wave_type (gridShowR include_r models)
    :: models.map (gridRow wave_type (gridShowR include_r models))

/-- `create_text_response_3d` from src/velocitrack/main.py. -/
def create_text_response_3d (models : List Model3D) (wave_type : String)
    (include_r : Bool) (bibref : String)
    (total_count offset limit : Nat) : String :=
  if models.isEmpty then ""
  else String.intercalate "\n"
    (lines3d models wave_type include_r bibref total_count offset limit)

/-! ### Facts about decimal rendering of natural numbers -/

theorem digitChar_isDigit {n : Nat} (h : n < 10) :
    (Nat.digitChar n).isDigit = true := by
  interval_cases n <;> decide

theorem toDigitsCore_isDigit :
    ∀ (fuel n : Nat) (acc : List Char),
      (∀ c ∈ acc, c.isDigit = true) →
      ∀ c ∈ Nat.toDigitsCore 10 fuel n acc, c.isDigit = true := by
  intro fuel
  induction fuel with
  | zero => intro n acc hacc c hc; exact hacc c hc
  | succ fuel ih =>
    intro n acc hacc c hc
    simp only [Nat.toDigitsCore] at hc
    by_cases h0 : n / 10 = 0
    · rw [if_pos h0] at hc
      rcases List.mem_cons.mp hc with h | h
      · exact h ▸ digitChar_isDigit (Nat.mod_lt n (by omega))
      · exact hacc c h
    · rw [if_neg h0] at hc
      refine ih (n / 10) _ ?_ c hc
      intro d hd
      rcases List.mem_cons.mp hd with h | h
      · exact h ▸ digitChar_isDigit (Nat.mod_lt n (by omega))
      · exact hacc d h

theorem repr_isDigit (n : Nat) : ∀ c ∈ (Nat.repr n).data, c.isDigit = true := by
  intro c hc
  exact toDigitsCore_isDigit (n + 1) n [] (by intro d hd; cases hd) c hc

theorem toDigitsCore_ne_nil :
    ∀ (fuel n : Nat) (acc : List Char), acc ≠ [] →
      Nat.toDigitsCore 10 fuel n acc ≠ [] := by
  intro fuel
  induction fuel with
  | zero => intro n acc hacc; exact hacc
  | succ fuel ih =>
    intro n acc _
    simp only [Nat.toDigitsCore]
    by_cases h0 : n / 10 = 0
    · rw [if_pos h0]; exact List.cons_ne_nil _ _
    · rw [if_neg h0]; exact ih (n / 10) _ (List.cons_ne_nil _ _)

theorem repr_data_ne_nil (n : Nat) : (Nat.repr n).data ≠ [] := by
  show Nat.toDigitsCore 10 (n + 1) n [] ≠ []
  simp only [Nat.toDigitsCore]
  by_cases h0 : n / 10 = 0
  · rw [if_pos h0]; exact List.cons_ne_nil _ _
  · rw [if_neg h0]; exact toDigitsCore_ne_nil n (n / 10) _ (List.cons_ne_nil _ _)

theorem toDigitsCore_of_lt {n : Nat} (fuel : Nat) (acc : List Char)
    (h : n < 10) :
    Nat.toDigitsCore 10 (fuel + 1) n acc = Nat.digitChar n :: acc := by
  simp [Nat.toDigitsCore, Nat.div_eq_of_lt h, Nat.mod_eq_of_lt h]

theorem repr_length_of_lt {n : Nat} (h : n < 10) : (Nat.repr n).length = 1 := by
  show (Nat.toDigitsCore 10 (n + 1) n []).length = 1
  rw [toDigitsCore_of_lt n [] h]
  rfl

theorem toDigitsCore_succ (fuel n : Nat) (acc : List Char) :
    Nat.toDigitsCore 10 (fuel + 1) n acc =
      if n / 10 = 0 then Nat.digitChar (n % 10) :: acc
      else Nat.toDigitsCore 10 fuel (n / 10) (Nat.digitChar (n % 10) :: acc) :=
  rfl

theorem repr_length_two {n : Nat} (h10 : 10 ≤ n) (h100 : n < 100) :
    (Nat.repr n).length = 2 := by
  show (Nat.toDigitsCore 10 (n + 1) n []).length = 2
  obtain ⟨k, rfl⟩ : ∃ k, n = k + 10 := ⟨n - 10, by omega⟩
  have hne : ¬ ((k + 10) / 10 = 0) := by omega
  rw [toDigitsCore_succ, if_neg hne,
    show k + 10 = (k + 9) + 1 from rfl,
    toDigitsCore_of_lt (k + 9) _ (by omega)]
  rfl

/-! ### Facts about the string building blocks -/

theorem spaces_length (n : Nat) : (spaces n).length = n := by
  show (List.replicate n ' ').length = n
  exact List.length_replicate n ' '

theorem spaces_data (n : Nat) : (spaces n).data = List.replicate n ' ' := rfl

theorem pad2_length {n : Nat} (h : n < 100) : (pad2 n).length = 2 := by
  unfold pad2
  by_cases h10 : n < 10
  · rw [if_pos h10, String.length_append, repr_length_of_lt h10]
    rfl
  · rw [if_neg h10, repr_length_two (by omega) h]

theorem length_dash : ("-" : String).length = 1 := rfl

theorem length_dot : ("." : String).length = 1 := rfl

theorem length_empty : ("" : String).length = 0 := rfl

theorem digits_length (x : Fx) :
    x.digits.length =
      (if x.neg then 1 else 0) + (Nat.repr (x.mag / 100)).length + 3 := by
  unfold Fx.digits
  have hfrac : x.mag % 100 < 100 := Nat.mod_lt _ (by omega)
  cases hn : x.neg <;>
    simp [hn, signStr, String.length_append, pad2_length hfrac, length_dash,
      length_dot, length_empty]

theorem fmtFixed_length (w : Nat) (x : Fx) :
    (fmtFixed w x).length = max w x.digits.length := by
  unfold fmtFixed
  rw [String.length_append, spaces_length]
  omega

theorem digits_length_neg_small {mag : Nat} (h : mag < 1000) :
    (Fx.digits ⟨true, mag⟩).length = 5 := by
  rw [digits_length]
  have : mag / 100 < 10 := by omega
  rw [repr_length_of_lt this]
  simp

theorem digits_length_pos_small {mag : Nat} (h : mag < 1000) :
    (Fx.digits ⟨false, mag⟩).length = 4 := by
  rw [digits_length]
  have : mag / 100 < 10 := by omega
  rw [repr_length_of_lt this]
  simp

theorem digits_length_pos_mid {mag : Nat} (h1 : 1000 ≤ mag) (h2 : mag < 10000) :
    (Fx.digits ⟨false, mag⟩).length = 5 := by
  rw [digits_length]
  have : (Nat.repr (mag / 100)).length = 2 :=
    repr_length_two (by omega) (by omega)
  rw [this]
  simp

/-! ### Character classification of the numeric renderings -/

theorem mem_signStr {b : Bool} {c : Char} (h : c ∈ (signStr b).data) :
    c = '-' := by
  cases b
  · exact absurd h (by rw [show (signStr false).data = [] from rfl]; exact List.not_mem_nil c)
  · rw [show (signStr true).data = ['-'] from rfl] at h
    simpa using h

theorem pad2_chars (n : Nat) : ∀ c ∈ (pad2 n).data, c.isDigit = true := by
  unfold pad2
  by_cases h : n < 10
  · rw [if_pos h]
    intro c hc
    rw [String.data_append] at hc
    rcases List.mem_append.mp hc with h0 | hr
    · rw [show ("0" : String).data = ['0'] from rfl] at h0
      have hc0 : c = '0' := by simpa using h0
      subst hc0
      decide
    · exact repr_isDigit n c hr
  · rw [if_neg h]
    exact repr_isDigit n

theorem digits_chars (x : Fx) :
    ∀ c ∈ x.digits.data, c.isDigit = true ∨ c = '-' ∨ c = '.' := by
  unfold Fx.digits
  intro c hc
  simp only [String.data_append, List.mem_append] at hc
  rcases hc with ((hsign | hint) | hdot) | hfrac
  · exact Or.inr (Or.inl (mem_signStr hsign))
  · exact Or.inl (repr_isDigit _ c hint)
  · exact Or.inr (Or.inr (by simpa using hdot))
  · exact Or.inl (pad2_chars _ c hfrac)

theorem pyStr_chars (x : Fx) :
    ∀ c ∈ (Fx.pyStr x).data, c.isDigit = true ∨ c = '-' ∨ c = '.' := by
  unfold Fx.pyStr
  intro c hc
  simp only [String.data_append, List.mem_append] at hc
  rcases hc with ((hsign | hint) | hdot) | hfrac
  · exact Or.inr (Or.inl (mem_signStr hsign))
  · exact Or.inl (repr_isDigit _ c hint)
  · exact Or.inr (Or.inr (by simpa using hdot))
  · by_cases h100 : x.mag % 100 = 0
    · rw [if_pos h100] at hfrac
      rw [show ("0" : String).data = ['0'] from rfl] at hfrac
      have hc0 : c = '0' := by simpa using hfrac
      subst hc0
      exact Or.inl (by decide)
    · rw [if_neg h100] at hfrac
      by_cases h10 : x.mag % 10 = 0
      · rw [if_pos h10] at hfrac
        exact Or.inl (repr_isDigit _ c hfrac)
      · rw [if_neg h10] at hfrac
        exact Or.inl (pad2_chars _ c hfrac)

theorem pyStr_no_pipe (x : Fx) : '|' ∉ (Fx.pyStr x).data := by
  intro h
  rcases pyStr_chars x '|' h with h | h | h <;> exact absurd h (by decide)

theorem pyStr_no_hash (x : Fx) : '#' ∉ (Fx.pyStr x).data := by
  intro h
  rcases pyStr_chars x '#' h with h | h | h <;> exact absurd h (by decide)

theorem digits_no_comma (x : Fx) : ',' ∉ x.digits.data := by
  intro h
  rcases digits_chars x ',' h with h | h | h <;> exact absurd h (by decide)

theorem repr_no_comma (n : Nat) : ',' ∉ (Nat.repr n).data := by
  intro h
  exact absurd (repr_isDigit n ',' h) (by decide)

theorem repr_no_space (n : Nat) : ' ' ∉ (Nat.repr n).data := by
  intro h
  exact absurd (repr_isDigit n ' ' h) (by decide)

/-! ### First characters of the emitted lines -/

theorem mem_of_head_eq {α} {l : List α} {a : α} (h : l.head? = some a) :
    a ∈ l := by
  cases l with
  | nil => cases h
  | cons b t =>
    rw [List.head?_cons, Option.some.injEq] at h
    exact h ▸ List.mem_cons_self b t

theorem head_append_left {α} {l : List α} (l' : List α) {a : α}
    (h : l.head? = some a) : (l ++ l').head? = some a := by
  cases l with
  | nil => cases h
  | cons b t => rw [List.head?_cons, Option.some.injEq] at h; simp [h]

theorem string_ne_of_head_ne {s t : String} {a b : Char}
    (hs : s.data.head? = some a) (ht : t.data.head? = some b) (hab : a ≠ b) :
    s ≠ t := by
  intro h
  subst h
  rw [hs, Option.some.injEq] at ht
  exact hab ht

theorem pagLine_head (t o l c : Nat) :
    (pagLine t o l c).data.head? = some '#' := by
  unfold pagLine
  simp only [String.data_append]
  repeat rw [List.append_assoc]
  rfl

theorem titleLine1d_head (models : List Model1D) (bibref : String) :
    (titleLine1d models bibref).data.head? = some '1' := by
  simp only [titleLine1d]
  by_cases h : bibref = ""
  · rw [if_pos h, String.data_append]
    rfl
  · rw [if_neg h, String.data_append, String.data_append, String.data_append,
      List.append_assoc, List.append_assoc]
    rfl

theorem titleLine3d_head (models : List Model3D) (bibref : String) :
    (titleLine3d models bibref).data.head? = some '3' := by
  simp only [titleLine3d]
  by_cases h : bibref = ""
  · rw [if_pos h, String.data_append]
    rfl
  · rw [if_neg h, String.data_append, String.data_append, String.data_append,
      List.append_assoc, List.append_assoc]
    rfl

theorem bodyLine_head (tag : String) (first : Bool) (m : Model1D) :
    (bodyLine tag first m).data.head? = some ' ' := by
  unfold bodyLine
  simp only [String.data_append]
  repeat rw [List.append_assoc]
  rfl

theorem pyStr_head_ne_hash (x : Fx) :
    ∃ c, (Fx.pyStr x).data.head? = some c ∧ c ≠ '#' := by
  have hne : (Nat.repr (x.mag / 100)).data ≠ [] := repr_data_ne_nil _
  unfold Fx.pyStr
  cases hn : x.neg
  · rw [show signStr false = "" from rfl]
    simp only [String.data_append]
    obtain ⟨c, cs, hcs⟩ : ∃ c cs, (Nat.repr (x.mag / 100)).data = c :: cs := by
      cases h : (Nat.repr (x.mag / 100)).data with
      | nil => exact absurd h hne
      | cons c cs => exact ⟨c, cs, rfl⟩
    refine ⟨c, ?_, ?_⟩
    · rw [List.nil_append, hcs]
      rfl
    · have hd : c.isDigit = true := repr_isDigit _ c (by rw [hcs]; simp)
      intro hc
      rw [hc] at hd
      exact absurd hd (by decide)
  · rw [show signStr true = "-" from rfl]
    refine ⟨'-', ?_, by decide⟩
    simp only [String.data_append]
    rfl

/-- C9: on an empty input sequence both formatters return the empty string,
for every bibliographic reference, wave type, flag and pagination context:
no title line, no header, no annotation, no error. -/
theorem c9_empty_input_gives_empty_string
    (bibref : String) (t o l : Nat) (wave_type : String) (include_r : Bool)
    (bibref3 : String) (t3 o3 l3 : Nat) :
    create_text_response_1d [] bibref t o l = ""
      ∧ create_text_response_3d [] wave_type include_r bibref3 t3 o3 l3 = "" :=
  ⟨rfl, rfl⟩

/-- C2 (amended): the depth field of every body line follows the three-way
rule with the widths claimed, PROVIDED the two-decimal rendering fits the
minimum field width: a depth in (-10, 0) gives 7 leading spaces and a
5-character field, a depth in [10, 100) gives 7 leading spaces and a
5-character field, and a depth in [0, 10) whose sign bit is positive gives
8 leading spaces and a 4-character field.  Outside those ranges the Python
minimum-width conversion emits a wider field (and negative zero, which is
not `< 0`, lands in the third branch with a 5-character field, see C4). -/
theorem c2_depth_width_rule (d : Fx) :
    (d.toZ < 0 →
      (depthFmt d).2 = spaces 7 ∧ (depthFmt d).1 = fmtFixed 5 d
        ∧ (-1000 < d.toZ → (depthFmt d).1.length = 5))
    ∧ (1000 ≤ d.toZ →
      (depthFmt d).2 = spaces 7 ∧ (depthFmt d).1 = fmtFixed 5 d
        ∧ (d.toZ < 10000 → (depthFmt d).1.length = 5))
    ∧ (0 ≤ d.toZ → d.toZ < 1000 →
      (depthFmt d).2 = spaces 8 ∧ (depthFmt d).1 = fmtFixed 4 d
        ∧ (d.neg = false → (depthFmt d).1.length = 4)) := by
  obtain ⟨neg, mag⟩ := d
  cases neg
  case false =>
    have htoZ : (Fx.mk false mag).toZ = (mag : Int) := by simp [Fx.toZ]
    rw [htoZ]
    refine ⟨fun h => absurd h (by omega), fun h => ?_, fun h0 h1 => ?_⟩
    · have hm : 1000 ≤ mag := by exact_mod_cast h
      have hc1 : ¬ ((Fx.mk false mag).toZ < 0) := by rw [htoZ]; omega
      have hc2 : 1000 ≤ (Fx.mk false mag).toZ := by rw [htoZ]; exact h
      unfold depthFmt
      rw [if_neg hc1, if_pos hc2]
      refine ⟨rfl, rfl, fun hlt => ?_⟩
      have hm2 : mag < 10000 := by exact_mod_cast hlt
      show (fmtFixed 5 (Fx.mk false mag)).length = 5
      rw [fmtFixed_length, digits_length_pos_mid hm hm2]
      exact Nat.max_self 5
    · have hm : mag < 1000 := by exact_mod_cast h1
      have hc1 : ¬ ((Fx.mk false mag).toZ < 0) := by rw [htoZ]; omega
      have hc2 : ¬ (1000 ≤ (Fx.mk false mag).toZ) := by rw [htoZ]; omega
      unfold depthFmt
      rw [if_neg hc1, if_neg hc2]
      refine ⟨rfl, rfl, fun _ => ?_⟩
      show (fmtFixed 4 (Fx.mk false mag)).length = 4
      rw [fmtFixed_length, digits_length_pos_small hm]
      exact Nat.max_self 4
  case true =>
    have htoZ : (Fx.mk true mag).toZ = -(mag : Int) := by simp [Fx.toZ]
    refine ⟨fun h => ?_, fun h => ?_, fun h0 h1 => ?_⟩
    · unfold depthFmt
      rw [if_pos h]
      refine ⟨rfl, rfl, fun hgt => ?_⟩
      rw [htoZ] at hgt
      have hm : mag < 1000 := by omega
      show (fmtFixed 5 (Fx.mk true mag)).length = 5
      rw [fmtFixed_length, digits_length_neg_small hm]
      exact Nat.max_self 5
    · exfalso; rw [htoZ] at h; omega
    · rw [htoZ] at h0 h1
      have hm : mag = 0 := by omega
      subst hm
      exact ⟨by decide, by decide, fun hneg => absurd hneg (by decide)⟩

/-- C2 witness: at the concrete depth 12.50 the second branch of the rule
applies and yields 7 leading spaces and a 5-character field. -/
theorem c2_depth_width_rule_witness :
    1000 ≤ (Fx.mk false 1250).toZ
      ∧ ((depthFmt (Fx.mk false 1250)).2 = spaces 7
        ∧ (depthFmt (Fx.mk false 1250)).1 = fmtFixed 5 (Fx.mk false 1250)
        ∧ (depthFmt (Fx.mk false 1250)).1.length = 5) :=
  ⟨by decide, by
    obtain ⟨hs, hf, hl⟩ := (c2_depth_width_rule (Fx.mk false 1250)).2.1 (by decide)
    exact ⟨hs, hf, hl (by decide)⟩⟩

/-- C2 counterexample: at depth 100.00 the claimed "depth ≥ 10 gives a
5-character field" fails: the Python minimum-width conversion renders
`"100.00"`, a 6-character field. -/
theorem c2_counterexample :
    1000 ≤ (Fx.mk false 10000).toZ
      ∧ ¬ ((depthFmt (Fx.mk false 10000)).1.length = 5) := by
  decide

/-- C4 counterexample: for depth negative zero the claimed negative-depth
branch (7 leading spaces) is NOT taken: the code tests `model.depth < 0`,
and `-0.0 < 0` is false for floats, so the spacing is 8 spaces. -/
theorem c4_counterexample :
    (depthFmt (Fx.mk true 0)).2 ≠ spaces 7 := by
  decide

/-- C4 (amended): negative zero is not `< 0`, so it follows the
`0 ≤ depth < 10` branch: 8 leading spaces and a minimum-width-4 field;
the sign is still preserved by the numeric conversion, which renders
`"-0.00"` (5 characters).  End to end, a P-wave record with depth `-0.0`
produces exactly that body line. -/
theorem c4_negative_zero_else_branch :
    ¬ ((Fx.mk true 0).toZ < 0)
      ∧ depthFmt (Fx.mk true 0) = (fmtFixed 4 (Fx.mk true 0), spaces 8)
      ∧ fmtFixed 4 (Fx.mk true 0) = "-0.00"
      ∧ create_text_response_1d [⟨"VP", ⟨true, 0⟩, ⟨false, 550⟩, "X"⟩] "" 0 0 0
          = "1D X\n 1        vel,depth,vdamp,phase (f5.2,5x,f7.2,2x,f7.3,3x,a1)\n 5.50        -0.00   001.000           P-VELOCITY MODEL" := by
  refine ⟨by decide, by decide, by decide, ?_⟩
  decide

/-! ### Partition and stable sort -/

/-- C5: the split into the P-wave and S-wave subsets is a partition of any
input of well-typed records (the pydantic schema declares
`wave_type: Literal["VP", "VS"]`): every record lands in exactly one of the
two subsets and the subset sizes sum to the input length. -/
theorem c5_partition_preserves_records (models : List Model1D)
    (h : ∀ m ∈ models, m.wave_type = "VP" ∨ m.wave_type = "VS") :
    (vp_models models).length + (vs_models models).length = models.length
    ∧ ∀ m ∈ models,
        (m ∈ vp_models models ∧ m ∉ vs_models models)
        ∨ (m ∈ vs_models models ∧ m ∉ vp_models models) := by
  constructor
  · induction models with
    | nil => rfl
    | cons a l ih =>
      have hl : ∀ m ∈ l, m.wave_type = "VP" ∨ m.wave_type = "VS" :=
        fun m hm => h m (List.mem_cons_of_mem a hm)
      have key := ih hl
      rcases h a (List.mem_cons_self a l) with ha | ha <;>
        simp only [vp_models, vs_models, List.filter_cons, ha] at key ⊢ <;>
        simp <;> omega
  · intro m hm
    rcases h m hm with hv | hv
    · refine Or.inl ⟨List.mem_filter.mpr ⟨hm, by simp [hv]⟩, fun hmem => ?_⟩
      have := (List.mem_filter.mp hmem).2
      simp [hv] at this
    · refine Or.inr ⟨List.mem_filter.mpr ⟨hm, by simp [hv]⟩, fun hmem => ?_⟩
      have := (List.mem_filter.mp hmem).2
      simp [hv] at this

/-- C5 witness: a concrete two-record input (one P, one S) splits into one
record per subset. -/
theorem c5_partition_preserves_records_witness :
    (∀ m ∈ ([⟨"VP", ⟨false, 0⟩, ⟨false, 580⟩, "A"⟩,
             ⟨"VS", ⟨false, 100⟩, ⟨false, 330⟩, "A"⟩] : List Model1D),
        m.wave_type = "VP" ∨ m.wave_type = "VS")
    ∧ ((vp_models [⟨"VP", ⟨false, 0⟩, ⟨false, 580⟩, "A"⟩,
                   ⟨"VS", ⟨false, 100⟩, ⟨false, 330⟩, "A"⟩]).length
        + (vs_models [⟨"VP", ⟨false, 0⟩, ⟨false, 580⟩, "A"⟩,
                      ⟨"VS", ⟨false, 100⟩, ⟨false, 330⟩, "A"⟩]).length
        = ([⟨"VP", ⟨false, 0⟩, ⟨false, 580⟩, "A"⟩,
            ⟨"VS", ⟨false, 100⟩, ⟨false, 330⟩, "A"⟩] : List Model1D).length) :=
  ⟨by decide, (c5_partition_preserves_records _ (by decide)).1⟩

theorem filter_orderedInsert (p : Model1D → Bool) (a : Model1D)
    (hp : ∀ b : Model1D, ¬ depthLE a b → p a = true → p b = false) :
    ∀ l : List Model1D,
      (List.orderedInsert depthLE a l).filter p =
        if p a then a :: l.filter p else l.filter p := by
  intro l
  induction l with
  | nil =>
    cases hpa : p a <;> simp [List.orderedInsert, List.filter, hpa]
  | cons b l ih =>
    by_cases hab : depthLE a b
    · rw [List.orderedInsert, if_pos hab]
      cases hpa : p a <;> cases hpb : p b <;>
        simp [List.filter_cons, hpa, hpb]
    · rw [List.orderedInsert, if_neg hab]
      cases hpa : p a
      · rw [List.filter_cons]
        rw [ih]
        simp only [hpa, if_false, Bool.false_eq_true]
        rw [List.filter_cons]
      · have hpb : p b = false := hp b hab hpa
        rw [List.filter_cons]
        rw [ih]
        simp only [hpa, hpb, if_true, if_false, Bool.false_eq_true]
        rw [List.filter_cons]
        simp only [hpb, Bool.false_eq_true, if_false]

/-- Stability of the sort: a filter that only keeps records of a single
depth class commutes with the sort, i.e. equal-depth records keep their
input order. -/
theorem filter_insertionSort (p : Model1D → Bool)
    (hp : ∀ a b : Model1D, ¬ depthLE a b → p a = true → p b = false) :
    ∀ l : List Model1D,
      (List.insertionSort depthLE l).filter p = l.filter p := by
  intro l
  induction l with
  | nil => rfl
  | cons a l ih =>
    rw [List.insertionSort, filter_orderedInsert p a (hp a), ih]
    cases hpa : p a <;> simp [List.filter_cons, hpa]

/-- C7: within each wave-type subset the sorted list used for the body
lines is ascending in depth, and for every depth value the subsequence of
records having that depth is exactly the one of the unsorted subset: the
per-subset sort is stable. -/
theorem c7_sort_ascending_and_stable (models : List Model1D) :
    (List.Sorted depthLE (sortByDepth (vp_models models))
      ∧ List.Sorted depthLE (sortByDepth (vs_models models)))
    ∧ ∀ d : Int,
        ((sortByDepth (vp_models models)).filter
            (fun m => decide (m.depth.toZ = d))
          = (vp_models models).filter (fun m => decide (m.depth.toZ = d)))
        ∧ ((sortByDepth (vs_models models)).filter
            (fun m => decide (m.depth.toZ = d))
          = (vs_models models).filter (fun m => decide (m.depth.toZ = d))) := by
  refine ⟨⟨List.sorted_insertionSort depthLE _,
    List.sorted_insertionSort depthLE _⟩, ?_⟩
  intro d
  have hp : ∀ a b : Model1D, ¬ depthLE a b →
      decide (a.depth.toZ = d) = true → decide (b.depth.toZ = d) = false := by
    intro a b hab ha
    rw [decide_eq_true_eq] at ha
    rw [decide_eq_false_iff_not]
    intro hb
    exact hab (by unfold depthLE; omega)
  exact ⟨filter_insertionSort _ hp _, filter_insertionSort _ hp _⟩

/-! ### No commas in body lines (used to separate them from the P-wave
format-descriptor line, which contains commas) -/

theorem string_ne_of_mem_not_mem {s t : String} {c : Char}
    (hs : c ∈ s.data) (ht : c ∉ t.data) : s ≠ t :=
  fun h => ht (h ▸ hs)

theorem spaces_no_comma (n : Nat) : ',' ∉ (spaces n).data := by
  rw [spaces_data]
  intro h
  exact absurd (List.eq_of_mem_replicate h) (by decide)

theorem fmtFixed_no_comma (w : Nat) (x : Fx) : ',' ∉ (fmtFixed w x).data := by
  unfold fmtFixed
  rw [String.data_append]
  intro h
  rcases List.mem_append.mp h with h | h
  · exact spaces_no_comma _ h
  · exact digits_no_comma _ h

theorem depthFmt_no_comma (d : Fx) :
    ',' ∉ (depthFmt d).1.data ∧ ',' ∉ (depthFmt d).2.data := by
  unfold depthFmt
  split_ifs <;> exact ⟨fmtFixed_no_comma _ _, spaces_no_comma _⟩

theorem bodyLine_no_comma {tag : String} (htag : ',' ∉ tag.data)
    (first : Bool) (m : Model1D) : ',' ∉ (bodyLine tag first m).data := by
  unfold bodyLine
  simp only [String.data_append, List.mem_append]
  intro h
  rcases h with ((((hA | hB) | hC) | hD) | hE) | hF
  · exact absurd hA (by decide)
  · exact fmtFixed_no_comma _ _ hB
  · exact (depthFmt_no_comma _).2 hC
  · exact (depthFmt_no_comma _).1 hD
  · exact absurd hE (by decide)
  · cases first
    · simp only [Bool.false_eq_true, if_false] at hF
      exact absurd hF (by decide)
    · simp only [if_true] at hF
      rw [String.data_append] at hF
      rcases List.mem_append.mp hF with h | h
      · exact absurd h (by decide)
      · exact htag h

/-! ### Membership in the wave-type sections -/

theorem mem_sectionLines {tag l : String} {ms : List Model1D}
    (h : l ∈ sectionLines tag ms) : ∃ f m, l = bodyLine tag f m := by
  cases ms with
  | nil => cases h
  | cons m rest =>
    simp only [sectionLines] at h
    rcases List.mem_cons.mp h with h | h
    · exact ⟨true, m, h⟩
    · obtain ⟨m2, _, hm2⟩ := List.mem_map.mp h
      exact ⟨false, m2, hm2.symm⟩

theorem vpSection_head {l : String} {s : List Model1D} (h : l ∈ vpSection s) :
    l.data.head? = some ' ' := by
  unfold vpSection at h
  by_cases he : s.isEmpty
  · rw [if_pos he] at h; cases h
  · rw [if_neg he] at h
    rcases List.mem_cons.mp h with h | h
    · subst h
      rw [String.data_append, String.data_append]
      rfl
    · obtain ⟨f, m, rfl⟩ := mem_sectionLines h
      exact bodyLine_head _ _ _

theorem vsSection_head {l : String} {s : List Model1D} (h : l ∈ vsSection s) :
    l.data.head? = some ' ' := by
  unfold vsSection at h
  by_cases he : s.isEmpty
  · rw [if_pos he] at h; cases h
  · rw [if_neg he] at h
    rcases List.mem_cons.mp h with h | h
    · subst h
      rw [String.data_append]
      rfl
    · obtain ⟨f, m, rfl⟩ := mem_sectionLines h
      exact bodyLine_head _ _ _

theorem vsSection_no_comma {l : String} {s : List Model1D}
    (h : l ∈ vsSection s) : ',' ∉ l.data := by
  unfold vsSection at h
  by_cases he : s.isEmpty
  · rw [if_pos he] at h; cases h
  · rw [if_neg he] at h
    rcases List.mem_cons.mp h with h | h
    · subst h
      rw [String.data_append]
      intro hc
      rcases List.mem_append.mp hc with hc | hc
      · exact absurd hc (by decide)
      · exact repr_no_comma _ hc
    · obtain ⟨f, m, rfl⟩ := mem_sectionLines h
      exact bodyLine_no_comma (by decide) f m

/-- C8: a wave-type block is emitted only when its subset is non-empty.
When the input has no P-wave record the output lines are exactly the title,
the optional annotation and the S section, and no line of the output is a
P-wave count/format-descriptor line (for any count); symmetrically, when
the input has no S-wave record the output is exactly the title, the
optional annotation and the P section. -/
theorem c8_empty_subset_emits_no_block (models : List Model1D)
    (bibref : String) (t o lim : Nat) :
    (vp_models models = [] →
      (lines1d models bibref t o lim =
        titleLine1d models bibref
          :: pagLines t o lim models.length
          ++ vsSection (sortByDepth (vs_models models)))
      ∧ ∀ n : Nat,
          (" " ++ Nat.repr n
            ++ "        vel,depth,vdamp,phase (f5.2,5x,f7.2,2x,f7.3,3x,a1)")
            ∉ lines1d models bibref t o lim)
    ∧ (vs_models models = [] →
      lines1d models bibref t o lim =
        titleLine1d models bibref
          :: pagLines t o lim models.length
          ++ vpSection (sortByDepth (vp_models models))) := by
  constructor
  · intro h
    constructor
    · unfold lines1d
      rw [h, show sortByDepth ([] : List Model1D) = [] from rfl,
        show vpSection [] = [] from rfl, List.append_nil]
    · intro n hmem
      unfold lines1d at hmem
      rw [h, show sortByDepth ([] : List Model1D) = [] from rfl,
        show vpSection [] = [] from rfl, List.append_nil] at hmem
      have hdesc_head : (" " ++ Nat.repr n
          ++ "        vel,depth,vdamp,phase (f5.2,5x,f7.2,2x,f7.3,3x,a1)").data.head?
          = some ' ' := by
        rw [String.data_append, String.data_append]
        rfl
      rcases List.mem_cons.mp hmem with heq | hmem
      · exact string_ne_of_head_ne hdesc_head (titleLine1d_head models bibref)
          (by decide) heq
      rcases List.mem_append.mp hmem with hp | hv
      · unfold pagLines at hp
        by_cases hc : models.length < t
        · rw [if_pos hc] at hp
          have heq2 : (" " ++ Nat.repr n
              ++ "        vel,depth,vdamp,phase (f5.2,5x,f7.2,2x,f7.3,3x,a1)")
              = pagLine t o lim models.length := by simpa using hp
          exact string_ne_of_head_ne hdesc_head (pagLine_head t o lim _)
            (by decide) heq2
        · rw [if_neg hc] at hp
          cases hp
      · refine vsSection_no_comma hv ?_
        rw [String.data_append]
        refine List.mem_append.mpr (Or.inr ?_)
        decide
  · intro h
    unfold lines1d
    rw [h, show sortByDepth ([] : List Model1D) = [] from rfl,
      show vsSection [] = [] from rfl, List.append_nil]

/-- C8 witness: a one-record S-wave input produces exactly the title line
and the S section. -/
theorem c8_empty_subset_emits_no_block_witness :
    vp_models [⟨"VS", ⟨false, 100⟩, ⟨false, 330⟩, "A"⟩] = []
    ∧ lines1d [⟨"VS", ⟨false, 100⟩, ⟨false, 330⟩, "A"⟩] "" 0 0 0 =
        titleLine1d [⟨"VS", ⟨false, 100⟩, ⟨false, 330⟩, "A"⟩] ""
          :: pagLines 0 0 0 1
          ++ vsSection (sortByDepth
              (vs_models [⟨"VS", ⟨false, 100⟩, ⟨false, 330⟩, "A"⟩])) :=
  ⟨by decide,
    ((c8_empty_subset_emits_no_block
      [⟨"VS", ⟨false, 100⟩, ⟨false, 330⟩, "A"⟩] "" 0 0 0).1 (by decide)).1⟩

/-! ### The R column of the grid formatter -/

theorem toZ_eq_hundred_iff (v : Fx) : v.toZ = 100 ↔ v = fxOne := by
  obtain ⟨neg, mag⟩ := v
  cases neg
  · constructor
    · intro h
      have hm : mag = 100 := by
        have : ((mag : Int)) = 100 := by simpa [Fx.toZ] using h
        exact_mod_cast this
      rw [hm]
      rfl
    · intro h
      rw [h]
      rfl
  · constructor
    · intro h
      exfalso
      have : (-(mag : Int)) = 100 := by simpa [Fx.toZ] using h
      omega
    · intro h
      have h2 : true = false := congrArg Fx.neg h
      exact Bool.noConfusion h2

theorem rNeOne_iff (r : Option Fx) : rNeOne r = true ↔ r ≠ some fxOne := by
  cases r with
  | none => simp [rNeOne]
  | some v =>
    simp only [rNeOne, decide_eq_true_eq]
    constructor
    · intro h hv
      injection hv with hv
      exact h ((toZ_eq_hundred_iff v).mpr hv)
    · intro h htoZ
      exact h (by rw [(toZ_eq_hundred_iff v).mp htoZ])

theorem gridRowBase_pipes (wt : String) (m : Model3D) :
    (gridRowBase wt m).data.count '|' = 3 := by
  unfold gridRowBase
  simp only [String.data_append, List.count_append]
  rw [List.count_eq_zero.mpr (pyStr_no_pipe m.longitude),
    List.count_eq_zero.mpr (pyStr_no_pipe m.latitude),
    List.count_eq_zero.mpr (pyStr_no_pipe m.depth),
    List.count_eq_zero.mpr (pyStr_no_pipe _)]
  decide

theorem gridRow_pipes (wt : String) (sr : Bool) (m : Model3D) :
    (gridRow wt sr m).data.count '|' = if sr then 4 else 3 := by
  unfold gridRow
  cases sr
  · simp only [Bool.false_eq_true, if_false]
    exact gridRowBase_pipes wt m
  · simp only [if_true]
    rw [String.data_append, String.data_append, List.count_append,
      List.count_append, gridRowBase_pipes,
      List.count_eq_zero.mpr (pyStr_no_pipe _)]
    decide

theorem not_base_eq_append_pipeR (wt : String) (p : String) :
    "Longitude|Latitude|Depth|" ++ velName wt ≠ p ++ "|R" := by
  intro h
  have hdata := congrArg String.data h
  rw [String.data_append, String.data_append] at hdata
  have h2 : (p.data ++ ("|R" : String).data).getLast? = some 'R' := by
    rw [List.getLast?_append]
    rfl
  rw [← hdata, List.getLast?_append] at h2
  unfold velName at h2
  by_cases hw : (wt == "VP") = true
  · rw [if_pos hw] at h2
    rw [show ("Vp" : String).data = ['V', 'p'] from rfl] at h2
    rw [show ((['V', 'p'] : List Char).getLast?) = some 'p' from rfl] at h2
    rw [show ∀ o : Option Char, (some 'p').or o = some 'p' from fun _ => rfl] at h2
    exact absurd h2 (by decide)
  · rw [if_neg hw] at h2
    rw [show ("Vs" : String).data = ['V', 's'] from rfl] at h2
    rw [show ((['V', 's'] : List Char).getLast?) = some 's' from rfl] at h2
    rw [show ∀ o : Option Char, (some 's').or o = some 's' from fun _ => rfl] at h2
    exact absurd h2 (by decide)

/-- C1: the scale-factor column appears (the header carries the `|R`
caption and every body row carries five pipe-delimited values, i.e. four
pipes) exactly when the caller requested it AND some record has a stored
scale factor differing from the float `1.0` (a record whose scale factor
is absent also counts as differing, since `None != 1.0` in Python; see
C6); otherwise the header has no `|R` and every row has exactly four
values. -/
theorem c1_grid_r_column_iff (models : List Model3D)
    (wave_type bibref : String) (include_r : Bool) (t o lim : Nat)
    (hne : models ≠ []) :
    (gridShowR include_r models = true
      ↔ (include_r = true ∧ ∃ m ∈ models, m.r ≠ some fxOne))
    ∧ ((∃ p, gridHeader wave_type (gridShowR include_r models) = p ++ "|R")
      ↔ gridShowR include_r models = true)
    ∧ (∀ m ∈ models,
        (gridRow wave_type (gridShowR include_r models) m).data.count '|'
          = if gridShowR include_r models then 4 else 3) := by
  refine ⟨?_, ?_, ?_⟩
  · constructor
    · intro h
      unfold gridShowR at h
      rw [Bool.and_eq_true] at h
      obtain ⟨hir, hany⟩ := h
      rw [List.any_eq_true] at hany
      obtain ⟨m, hm, hr⟩ := hany
      exact ⟨hir, m, hm, (rNeOne_iff m.r).mp hr⟩
    · rintro ⟨hir, m, hm, hr⟩
      unfold gridShowR
      rw [Bool.and_eq_true]
      exact ⟨hir, List.any_eq_true.mpr ⟨m, hm, (rNeOne_iff m.r).mpr hr⟩⟩
  · cases hs : gridShowR include_r models
    · constructor
      · rintro ⟨p, hp⟩
        unfold gridHeader at hp
        rw [if_neg (by simp)] at hp
        exact absurd hp (not_base_eq_append_pipeR wave_type p)
      · intro h
        exact Bool.noConfusion h
    · constructor
      · intro _
        rfl
      · intro _
        exact ⟨"Longitude|Latitude|Depth|" ++ velName wave_type, rfl⟩
  · intro m _
    exact gridRow_pipes wave_type (gridShowR include_r models) m

/-- C1 witness: a single record with scale factor 2.5 and the flag set
shows the column; the row then has four pipes. -/
theorem c1_grid_r_column_iff_witness :
    ([⟨⟨false, 2000⟩, ⟨false, 4000⟩, ⟨false, 500⟩, ⟨false, 600⟩,
        ⟨false, 350⟩, some ⟨false, 250⟩, "N"⟩] : List Model3D) ≠ []
    ∧ ((gridShowR true [⟨⟨false, 2000⟩, ⟨false, 4000⟩, ⟨false, 500⟩,
          ⟨false, 600⟩, ⟨false, 350⟩, some ⟨false, 250⟩, "N"⟩] = true
        ↔ (true = true ∧ ∃ m ∈ ([⟨⟨false, 2000⟩, ⟨false, 4000⟩,
            ⟨false, 500⟩, ⟨false, 600⟩, ⟨false, 350⟩, some ⟨false, 250⟩,
            "N"⟩] : List Model3D), m.r ≠ some fxOne))
      ∧ ((∃ p, gridHeader "VP" (gridShowR true [⟨⟨false, 2000⟩,
            ⟨false, 4000⟩, ⟨false, 500⟩, ⟨false, 600⟩, ⟨false, 350⟩,
            some ⟨false, 250⟩, "N"⟩]) = p ++ "|R")
        ↔ gridShowR true [⟨⟨false, 2000⟩, ⟨false, 4000⟩, ⟨false, 500⟩,
            ⟨false, 600⟩, ⟨false, 350⟩, some ⟨false, 250⟩, "N"⟩] = true)
      ∧ (∀ m ∈ ([⟨⟨false, 2000⟩, ⟨false, 4000⟩, ⟨false, 500⟩,
            ⟨false, 600⟩, ⟨false, 350⟩, some ⟨false, 250⟩, "N"⟩] :
            List Model3D),
          (gridRow "VP" (gridShowR true [⟨⟨false, 2000⟩, ⟨false, 4000⟩,
              ⟨false, 500⟩, ⟨false, 600⟩, ⟨false, 350⟩, some ⟨false, 250⟩,
              "N"⟩]) m).data.count '|'
            = if gridShowR true [⟨⟨false, 2000⟩, ⟨false, 4000⟩,
                ⟨false, 500⟩, ⟨false, 600⟩, ⟨false, 350⟩,
                some ⟨false, 250⟩, "N"⟩] then 4 else 3)) :=
  ⟨by decide,
    c1_grid_r_column_iff [⟨⟨false, 2000⟩, ⟨false, 4000⟩, ⟨false, 500⟩,
      ⟨false, 600⟩, ⟨false, 350⟩, some ⟨false, 250⟩, "N"⟩] "VP" "b" true
      0 0 0 (by decide)⟩

/-- C6: a record whose scale factor is absent counts as differing from the
default in the column test (`None != 1.0` is true in Python): with the
flag set, an input whose present scale factors all equal 1.0 but which has
an absent one still shows the column, and the row of every absent value
prints `1.0` in the R position. -/
theorem c6_none_r_shows_column_prints_default (models : List Model3D)
    (wave_type : String)
    (hall : ∀ m ∈ models, ∀ v, m.r = some v → v.toZ = 100)
    (habs : ∃ m ∈ models, m.r = none) :
    gridShowR true models = true
    ∧ ∀ m ∈ models, m.r = none →
        gridRow wave_type (gridShowR true models) m
          = gridRowBase wave_type m ++ "|1.0" := by
  have hshow : gridShowR true models = true := by
    unfold gridShowR
    rw [Bool.and_eq_true]
    refine ⟨rfl, List.any_eq_true.mpr ?_⟩
    obtain ⟨m, hm, hr⟩ := habs
    exact ⟨m, hm, by rw [hr]; rfl⟩
  refine ⟨hshow, fun m _ hr => ?_⟩
  rw [hshow]
  unfold gridRow
  rw [if_pos rfl, hr]
  rw [show (Option.getD (none : Option Fx) fxOne) = fxOne from rfl]
  rw [show Fx.pyStr fxOne = "1.0" by decide]
  rw [String.append_assoc, show ("|" : String) ++ "1.0" = "|1.0" by decide]

/-- C6 witness: two records, one with absent scale factor, one with scale
factor exactly 1.0: the column shows and the absent row prints `1.0`. -/
theorem c6_none_r_shows_column_prints_default_witness :
    gridShowR true [⟨⟨false, 2000⟩, ⟨false, 4000⟩, ⟨false, 500⟩,
        ⟨false, 600⟩, ⟨false, 350⟩, none, "N"⟩,
      ⟨⟨false, 2100⟩, ⟨false, 4100⟩, ⟨false, 500⟩, ⟨false, 620⟩,
        ⟨false, 360⟩, some ⟨false, 100⟩, "N"⟩] = true
    ∧ ∀ m ∈ ([⟨⟨false, 2000⟩, ⟨false, 4000⟩, ⟨false, 500⟩, ⟨false, 600⟩,
          ⟨false, 350⟩, none, "N"⟩,
        ⟨⟨false, 2100⟩, ⟨false, 4100⟩, ⟨false, 500⟩, ⟨false, 620⟩,
          ⟨false, 360⟩, some ⟨false, 100⟩, "N"⟩] : List Model3D),
        m.r = none →
          gridRow "VP" (gridShowR true [⟨⟨false, 2000⟩, ⟨false, 4000⟩,
              ⟨false, 500⟩, ⟨false, 600⟩, ⟨false, 350⟩, none, "N"⟩,
            ⟨⟨false, 2100⟩, ⟨false, 4100⟩, ⟨false, 500⟩, ⟨false, 620⟩,
              ⟨false, 360⟩, some ⟨false, 100⟩, "N"⟩]) m
            = gridRowBase "VP" m ++ "|1.0" :=
  c6_none_r_shows_column_prints_default _ "VP"
    (by
      intro m hm v hv
      rcases List.mem_cons.mp hm with rfl | hm2
      · exact Option.noConfusion hv
      · rcases List.mem_cons.mp hm2 with rfl | hm3
        · injection hv with hv
          rw [← hv]
          decide
        · cases hm3)
    (by decide)

/-! ### The pagination annotation line -/

theorem string_head_append (s t : String) {c : Char}
    (h : s.data.head? = some c) : (s ++ t).data.head? = some c := by
  rw [String.data_append]
  exact head_append_left _ h

theorem gridHeader_head (wt : String) (b : Bool) :
    (gridHeader wt b).data.head? = some 'L' := by
  unfold gridHeader
  cases b
  · simp only [Bool.false_eq_true, if_false]
    rw [String.data_append]
    rfl
  · simp only [if_true]
    rw [String.data_append, String.data_append]
    rfl

theorem gridRow_head (wt : String) (sr : Bool) (m : Model3D) :
    ∃ c, (gridRow wt sr m).data.head? = some c ∧ c ≠ '#' := by
  obtain ⟨c, hc, hch⟩ := pyStr_head_ne_hash m.longitude
  have hbase : (gridRowBase wt m).data.head? = some c := by
    unfold gridRowBase
    exact string_head_append _ _ (string_head_append _ _ (string_head_append _ _
      (string_head_append _ _ (string_head_append _ _
        (string_head_append _ _ hc)))))
  refine ⟨c, ?_, hch⟩
  unfold gridRow
  cases sr
  · simp only [Bool.false_eq_true, if_false]
    exact hbase
  · simp only [if_true]
    exact string_head_append _ _ (string_head_append _ _ hbase)

/-- C3: for both formatters (on the non-empty inputs the contract admits),
the pagination annotation line with the exact shape
`"# Showing {offset+1}-{offset+count} of {total} records (limit={limit}, offset={offset})"`
occurs among the output lines if and only if the total count strictly
exceeds the number of records passed in. -/
theorem c3_pagination_annotation_iff
    (models1 : List Model1D) (models3 : List Model3D)
    (wave_type : String) (include_r : Bool) (bib1 bib3 : String)
    (t1 o1 l1 t3 o3 l3 : Nat)
    (h1 : models1 ≠ []) (h3 : models3 ≠ []) :
    (pagLine t1 o1 l1 models1.length ∈ lines1d models1 bib1 t1 o1 l1
      ↔ models1.length < t1)
    ∧ (pagLine t3 o3 l3 models3.length
        ∈ lines3d models3 wave_type include_r bib3 t3 o3 l3
      ↔ models3.length < t3) := by
  constructor
  · constructor
    · intro hmem
      by_contra hc
      unfold lines1d pagLines at hmem
      rw [if_neg hc] at hmem
      rcases List.mem_append.mp hmem with hmem2 | hv
      rcases List.mem_append.mp hmem2 with ht | hv
      · have heq := List.mem_singleton.mp ht
        exact string_ne_of_head_ne (pagLine_head t1 o1 l1 models1.length)
          (titleLine1d_head models1 bib1) (by decide) heq
      · have hh := vpSection_head hv
        rw [pagLine_head] at hh
        exact absurd (Option.some.inj hh) (by decide)
      · have hh := vsSection_head hv
        rw [pagLine_head] at hh
        exact absurd (Option.some.inj hh) (by decide)
    · intro hc
      unfold lines1d pagLines
      rw [if_pos hc]
      exact List.mem_cons_of_mem _ (List.mem_append_left _
        (List.mem_append_left _ (List.mem_singleton_self _)))
  · constructor
    · intro hmem
      by_contra hc
      unfold lines3d pagLines at hmem
      rw [if_neg hc] at hmem
      rcases List.mem_append.mp hmem with ht | hmem2
      · have heq := List.mem_singleton.mp ht
        exact string_ne_of_head_ne (pagLine_head t3 o3 l3 models3.length)
          (titleLine3d_head models3 bib3) (by decide) heq
      rcases List.mem_cons.mp hmem2 with heq | hmem3
      · have hh : (pagLine t3 o3 l3 models3.length).data.head?
            = (gridHeader wave_type (gridShowR include_r models3)).data.head? := by
          rw [heq]
        rw [pagLine_head, gridHeader_head] at hh
        exact absurd (Option.some.inj hh) (by decide)
      · obtain ⟨m, _, hrow⟩ := List.mem_map.mp hmem3
        obtain ⟨c, hrh, hch⟩ := gridRow_head wave_type
          (gridShowR include_r models3) m
        have hh : (gridRow wave_type (gridShowR include_r models3) m).data.head?
            = (pagLine t3 o3 l3 models3.length).data.head? := by
          rw [hrow]
        rw [hrh, pagLine_head] at hh
        exact hch (Option.some.inj hh)
    · intro hc
      unfold lines3d pagLines
      rw [if_pos hc]
      exact List.mem_cons_of_mem _
        (List.mem_append_left _ (List.mem_singleton_self _))

/-- C3 witness: one 1D record with total 5 shows the annotation; one 3D
record with total equal to the record count does not. -/
theorem c3_pagination_annotation_iff_witness :
    ([⟨"VP", ⟨false, 0⟩, ⟨false, 580⟩, "A"⟩] : List Model1D) ≠ []
    ∧ ([⟨⟨false, 2000⟩, ⟨false, 4000⟩, ⟨false, 500⟩, ⟨false, 600⟩,
        ⟨false, 350⟩, none, "N"⟩] : List Model3D) ≠ []
    ∧ ((pagLine 5 0 10 ([⟨"VP", ⟨false, 0⟩, ⟨false, 580⟩, "A"⟩] :
          List Model1D).length
        ∈ lines1d [⟨"VP", ⟨false, 0⟩, ⟨false, 580⟩, "A"⟩] "" 5 0 10
      ↔ ([⟨"VP", ⟨false, 0⟩, ⟨false, 580⟩, "A"⟩] :
          List Model1D).length < 5)
      ∧ (pagLine 1 0 10 ([⟨⟨false, 2000⟩, ⟨false, 4000⟩, ⟨false, 500⟩,
            ⟨false, 600⟩, ⟨false, 350⟩, none, "N"⟩] : List Model3D).length
          ∈ lines3d [⟨⟨false, 2000⟩, ⟨false, 4000⟩, ⟨false, 500⟩,
              ⟨false, 600⟩, ⟨false, 350⟩, none, "N"⟩] "VP" false "" 1 0 10
        ↔ ([⟨⟨false, 2000⟩, ⟨false, 4000⟩, ⟨false, 500⟩, ⟨false, 600⟩,
            ⟨false, 350⟩, none, "N"⟩] : List Model3D).length < 1)) :=
  ⟨by decide, by decide,
    c3_pagination_annotation_iff
      [⟨"VP", ⟨false, 0⟩, ⟨false, 580⟩, "A"⟩]
      [⟨⟨false, 2000⟩, ⟨false, 4000⟩, ⟨false, 500⟩, ⟨false, 600⟩,
        ⟨false, 350⟩, none, "N"⟩]
      "VP" false "" "" 5 0 10 1 0 10 (by decide) (by decide)⟩

end Velocitrack
